import Mathlib

/-!
Verification of the `dronm/session` Go library: a shallow embedding of the
session manager (`session.go`), the redis provider (`redis/redis.go`) and the
sqlite provider, together with theorems checking the natural-language
specification against the code.

Conventions of the embedding:
* Go `int64` / `int` values are modelled as `Int` (no arithmetic here ever
  overflows 64 bits), counts and lengths as `Nat`.
* Wall-clock instants are modelled by their seconds; RFC3339 timestamps are
  opaque strings passed in by the caller.
* Backend effects (database statements, redis commands) are reified as values
  of `BackendCall`; a function returns the list of calls it performs, in order.
* Go `len` on a string counts bytes; it is modelled as `String.utf8ByteSize`.
-/

namespace SessionRepo

/-! ### session.go: log levels and WriteToLog -/

/-- Source `var log_levels = []string{"ERROR", "WARN", "DEBUG"}`. -/
def logLevels : List String := ["ERROR", "WARN", "DEBUG"]

/-- Source `type LogLevel int`; only the three enumerated constants occur. -/
abbrev LogLevel := Nat

def LOG_LEVEL_ERROR : LogLevel := 0

def LOG_LEVEL_WARN : LogLevel := 1

def LOG_LEVEL_DEBUG : LogLevel := 2

/-- Source `func (lv LogLevel) String() string { return log_levels[lv] }`. -/
def logLevelName (lv : LogLevel) : String := logLevels.getD lv ""

/-- Source `WriteToLog` (session.go): writes one tab-separated line
`SessionManager\t<RFC3339>\t<LEVEL>\t<msg>\n`. The current RFC3339 timestamp
is supplied by the caller of the model. -/
def writeToLog (nowRFC3339 : String) (s : String) (lv : LogLevel) : String :=
  "SessionManager\t" ++ nowRFC3339 ++ "\t" ++ logLevelName lv ++ "\t" ++ s ++ "\n"

/-! ### session.go: StartGC interval selection and loop bodies -/

/-- Source `Manager.StartGC`, lines computing `sleep_sec` for the combined
idle/lifetime loop: `none` means the loop is not started (`return`). -/
def gcSleepSec (life_time idle_time : Int) : Option Int :=
  if life_time = 0 ∧ idle_time = 0 then none
  else if idle_time > 0 ∧ life_time = 0 then some idle_time
  else if life_time > 0 ∧ idle_time = 0 then some life_time
  else if idle_time < life_time then some idle_time
  else some life_time

/-- Observable actions of the two GC goroutines. -/
inductive GCAction where
  | sleepFor (sec : Int)
  | callSessionGC
  | callDestroyAllSessions
deriving DecidableEq

/-- One iteration of the idle/lifetime goroutine of `StartGC`: the `select`
either observes cancellation (no action) or times out after `sleep_sec`
seconds and calls `manager.SessionGC`. -/
def idleGCLoopIter (cancelled : Bool) (sleep_sec : Int) : List GCAction :=
  if cancelled then []
  else [GCAction.sleepFor sleep_sec, GCAction.callSessionGC]

/-- Source `Manager.StartGC`, kill-time goroutine: sleep seconds until the
next occurrence of the daily kill instant.  `now_sec` and `kill_sec` are the
seconds-of-day `Hour()*60*60 + Minute()*60 + Second()` of the current time and
of `SessionsKillTime`. -/
def killSleepSec (now_sec kill_sec : Int) : Int :=
  let sleep_sec := kill_sec - now_sec
  if sleep_sec < 0 then 24 * 60 * 60 + sleep_sec else sleep_sec

/-- One iteration of the kill-time goroutine: recompute the sleep, then either
observe cancellation or time out, call `manager.DestroyAllSessions` and sleep
a fixed one second before looping (recomputing the sleep). -/
def killGCLoopIter (cancelled : Bool) (now_sec kill_sec : Int) : List GCAction :=
  if cancelled then []
  else [GCAction.sleepFor (killSleepSec now_sec kill_sec),
        GCAction.callDestroyAllSessions, GCAction.sleepFor 1]

/-! ### session.go: the WriteToLog call sites inside StartGC -/

/-- One `WriteToLog` call site inside `StartGC`: the site is guarded by
`l != nil && logLev >= guardLev` and writes a line labelled `statedLev`. -/
structure LogSite where
  guardLev : LogLevel
  statedLev : LogLevel
  msg : String
deriving DecidableEq

/-- All `WriteToLog` call sites reached by `StartGC` (including the first
iteration of each goroutine it spawns), translated site by site from the
source.  Note the `running garbage collector` site: its guard requires only
`logLev >= LOG_LEVEL_WARN` but the line is labelled `LOG_LEVEL_DEBUG`. -/
def startGCLogSites (killTimeSet : Bool) (life_time idle_time : Int) : List LogSite :=
  (if killTimeSet then
    [⟨LOG_LEVEL_WARN, LOG_LEVEL_WARN, "waiting session killer in %d seconds"⟩,
     ⟨LOG_LEVEL_DEBUG, LOG_LEVEL_DEBUG, "calling manager.DestroyAllSessions()"⟩]
   else [])
  ++ (if (gcSleepSec life_time idle_time).isSome then
    [⟨LOG_LEVEL_WARN, LOG_LEVEL_DEBUG, "running garbage collector every %d seconds"⟩,
     ⟨LOG_LEVEL_DEBUG, LOG_LEVEL_DEBUG, "calling manager.SessionGC()"⟩]
   else [])

/-- The lines actually emitted by the sites of `startGCLogSites`, as pairs of
the stated level and the message. -/
def startGCEmitted (sinkPresent : Bool) (logLev : LogLevel) (killTimeSet : Bool)
    (life_time idle_time : Int) : List (LogLevel × String) :=
  ((startGCLogSites killTimeSet life_time idle_time).filter
      (fun site => sinkPresent && decide (site.guardLev ≤ logLev))).map
    (fun site => (site.statedLev, site.msg))

/-! ### session.go: parseTime and NewManager -/

def TIME_SEC_LAYOUT : String := "15:04:05"

def TIME_MIN_LAYOUT : String := "15:04"

/-- Numeric value of a decimal digit character, as used by Go `time.Parse`. -/
def digitVal (c : Char) : Option Nat :=
  if c.isDigit then some (c.toNat - 48) else none

/-- Go `time.Parse` number field for the layouts `15`, `04`, `05` (the
non-fixed `getnum`): one or two decimal digits. -/
def getnum2 : List Char → Option (Nat × List Char)
  | [] => none
  | [c] => (digitVal c).map (fun d => (d, []))
  | c1 :: c2 :: rest =>
    match digitVal c1 with
    | none => none
    | some d1 =>
      match digitVal c2 with
      | some d2 => some (10 * d1 + d2, rest)
      | none => some (d1, c2 :: rest)

/-- Literal `:` separator of the time layouts. -/
def expectColon : List Char → Option (List Char)
  | ':' :: rest => some rest
  | _ => none

/-- Go `time.Parse` specialised to the layouts `15:04:05` (seconds) and
`15:04`: parse hour, minute and optionally second, require the whole input to
be consumed, and apply the range checks of `time.Parse`. -/
def parseClock (withSeconds : Bool) (s : String) : Option (Nat × Nat × Nat) :=
  match getnum2 s.data with
  | none => none
  | some (h, r1) =>
    match expectColon r1 with
    | none => none
    | some r2 =>
      match getnum2 r2 with
      | none => none
      | some (m, r3) =>
        if withSeconds then
          match expectColon r3 with
          | none => none
          | some r4 =>
            match getnum2 r4 with
            | none => none
            | some (sec, r5) =>
              if r5 = [] ∧ h < 24 ∧ m < 60 ∧ sec < 60 then some (h, m, sec) else none
        else
          if r3 = [] ∧ h < 24 ∧ m < 60 then some (h, m, 0) else none

/-- Source `parseTime` (session.go): dispatch on the byte length of the input
against the two layouts (Go `len`, 8 for `15:04:05` and 5 for `15:04`), then
parse; any other length is the `parseTime: unknown layout` error. -/
def parseTime (timeStr : String) : Except String (Nat × Nat × Nat) :=
  if timeStr.utf8ByteSize = TIME_SEC_LAYOUT.utf8ByteSize then
    match parseClock true timeStr with
    | some t => Except.ok t
    | none => Except.error "parsing time error"
  else if timeStr.utf8ByteSize = TIME_MIN_LAYOUT.utf8ByteSize then
    match parseClock false timeStr with
    | some t => Except.ok t
    | none => Except.error "parsing time error"
  else Except.error "parseTime: unknown layout"

/-- Outcome of `NewManager`: the construction result (with the stored kill
time, if any) and whether `InitProvider` was reached. -/
structure NewManagerOutcome where
  result : Except String (Option (Nat × Nat × Nat))
  initProviderCalled : Bool

/-- Source `NewManager` (session.go): resolve the provider from the registry,
store the kill time if the string is non-empty (returning its parse error,
if any, before anything else), then call `InitProvider` and return its error
or the manager.  `SetMaxLifeTime`/`SetMaxIdleTime` only copy the two numbers
into the provider and are elided.  `providerKnown` models the registry lookup
and `initProviderResult` the provider's `InitProvider` outcome. -/
def newManager (providerKnown : Bool) (initProviderResult : Except String Unit)
    (sessionsKillTime : String) : NewManagerOutcome :=
  if ¬ providerKnown then
    ⟨Except.error "session: unknown provider (forgotten import?)", false⟩
  else if sessionsKillTime ≠ "" then
    match parseTime sessionsKillTime with
    | Except.error e => ⟨Except.error e, false⟩
    | Except.ok t =>
      match initProviderResult with
      | Except.error e => ⟨Except.error e, true⟩
      | Except.ok _ => ⟨Except.ok (some t), true⟩
  else
    match initProviderResult with
    | Except.error e => ⟨Except.error e, true⟩
    | Except.ok _ => ⟨Except.ok none, true⟩

/-! ### Values stored in a session

Go stores `interface{}` values; the types exercised by the library and its
tests are modelled as a tagged union.  Float payloads are carried as rational
numbers (every float value is rational, and the only conversion the code
performs, `float64(float32)`, is exact, so it keeps the payload). -/

inductive GoValue where
  | vBool (b : Bool)
  | vString (s : String)
  | vBytes (bs : List Nat)
  | vInt (i : Int)
  | vInt64 (i : Int)
  | vFloat32 (q : ℚ)
  | vFloat64 (q : ℚ)
  | vTime (t : Int)
  | vStruct (tag : String)
deriving DecidableEq

/-- Go `string(b)` on a byte slice; the bytes appearing here are ASCII. -/
def stringOfBytes (bs : List Nat) : String :=
  String.mk (bs.map Char.ofNat)

/-- Lookup in the session's key-value map (`st.value[key]`). -/
def lookupVal : List (String × GoValue) → String → Option GoValue
  | [], _ => none
  | (k, v) :: rest, key => if k = key then some v else lookupVal rest key

/-- Map update `st.value[key] = v`. -/
def insertVal : List (String × GoValue) → String → GoValue → List (String × GoValue)
  | [], key, v => [(key, v)]
  | (k, w) :: rest, key, v =>
    if k = key then (k, v) :: rest else (k, w) :: insertVal rest key v

/-- Map removal `delete(st.value, key)`. -/
def removeVal : List (String × GoValue) → String → List (String × GoValue)
  | [], _ => []
  | (k, w) :: rest, key =>
    if k = key then removeVal rest key else (k, w) :: removeVal rest key

/-- Backend effects performed by the providers, reified. -/
inductive BackendCall where
  | dbExec (stmt : String)
  | redisSet (key : String)
  | redisDel (key : String)
deriving DecidableEq

/-! ### sqlite provider: SessionStore -/

/-- Source `SessionStore` of the sqlite provider: session id, timestamps, the
in-memory key-value map and the dirty flag (`valueModified`).  Timestamps are
modelled by their seconds; the per-store `sync.RWMutex` has no sequential
content. -/
structure SqliteStore where
  sid : String
  timeAccessed : Int
  timeCreated : Int
  value : List (String × GoValue)
  valueModified : Bool
deriving DecidableEq

/-- Source sqlite `SessionStore.Set`: if the new value is `reflect.DeepEqual`
to the staged one the call does nothing; otherwise it stages the value, sets
`valueModified` and `timeAccessed`.  No backend call is made either way
(`now` is the current time).  A missing key compares unequal to every value
passed in, matching `DeepEqual(nil, value) = false` for non-nil values. -/
def SqliteStore.set (st : SqliteStore) (key : String) (v : GoValue) (now : Int) :
    SqliteStore × List BackendCall :=
  if lookupVal st.value key = some v then (st, [])
  else ({ st with value := insertVal st.value key v,
                  valueModified := true, timeAccessed := now }, [])

/-- Source sqlite `SessionStore.Flush`: only if `valueModified` is set, encode
the map and issue the single `UPDATE` statement, then clear the flag;
otherwise do nothing at all. -/
def SqliteStore.flush (st : SqliteStore) : SqliteStore × List BackendCall :=
  if st.valueModified then
    ({ st with valueModified := false },
     [BackendCall.dbExec
        "UPDATE session_vals SET val = $1, accessed_time = datetime() WHERE id = $2"])
  else (st, [])

/-- Source sqlite `SessionStore.Delete`: absent key is a no-op; otherwise the
key is removed from the in-memory map and `timeAccessed` is touched.  Note
that `valueModified` is left unchanged and no backend call is made. -/
def SqliteStore.del (st : SqliteStore) (key : String) (now : Int) :
    SqliteStore × List BackendCall :=
  match lookupVal st.value key with
  | none => (st, [])
  | some _ => ({ st with timeAccessed := now, value := removeVal st.value key }, [])

/-- Source sqlite `SessionStore.GetBool`: absent key gives `false` without a
touch; otherwise `timeAccessed` is touched and a `bool` value is returned,
anything else giving `false`. -/
def SqliteStore.getBool (st : SqliteStore) (key : String) (now : Int) :
    Bool × SqliteStore :=
  match lookupVal st.value key with
  | none => (false, st)
  | some v =>
    let st' := { st with timeAccessed := now }
    match v with
    | GoValue.vBool b => (b, st')
    | _ => (false, st')

/-- Source sqlite `SessionStore.GetString`: absent key gives `""`; a `string`
value is returned as is, a `[]byte` value is returned converted by
`string(v)`, anything else gives `""`. -/
def SqliteStore.getString (st : SqliteStore) (key : String) (now : Int) :
    String × SqliteStore :=
  match lookupVal st.value key with
  | none => ("", st)
  | some v =>
    let st' := { st with timeAccessed := now }
    match v with
    | GoValue.vString s => (s, st')
    | GoValue.vBytes bs => (stringOfBytes bs, st')
    | _ => ("", st')

/-- Source sqlite `SessionStore.GetInt`: absent key gives `0`; an `int64`
value is returned as is, an `int` value widened by `int64(v)`, anything else
gives `0`. -/
def SqliteStore.getInt (st : SqliteStore) (key : String) (now : Int) :
    Int × SqliteStore :=
  match lookupVal st.value key with
  | none => (0, st)
  | some v =>
    let st' := { st with timeAccessed := now }
    match v with
    | GoValue.vInt64 i => (i, st')
    | GoValue.vInt i => (i, st')
    | _ => (0, st')

/-- Source sqlite `SessionStore.GetFloat`: absent key gives `0`; a `float64`
value is returned as is, a `float32` value widened exactly by `float64(v)`,
anything else gives `0`. -/
def SqliteStore.getFloat (st : SqliteStore) (key : String) (now : Int) :
    ℚ × SqliteStore :=
  match lookupVal st.value key with
  | none => (0, st)
  | some v =>
    let st' := { st with timeAccessed := now }
    match v with
    | GoValue.vFloat64 q => (q, st')
    | GoValue.vFloat32 q => (q, st')
    | _ => (0, st')

/-! ### redis provider: SessionStore -/

/-- Source redis `getPrefixedKey`: `namespace + ":" + sid + ":" + key`. -/
def redisPrefixedKey (ns sid key : String) : String :=
  ns ++ ":" ++ sid ++ ":" ++ key

/-- Backend calls of redis `setValue` (used by `Set`, `Put` and
`sessionAccessed`): one `client.Set` of the gob-encoded value under the
prefixed key. -/
def redisSetValueCalls (ns sid key : String) : List BackendCall :=
  [BackendCall.redisSet (redisPrefixedKey ns sid key)]

/-- Backend calls of redis `SessionStore.Set`: it calls `pder.setValue`
directly, so every `Set` performs a backend write. -/
def redisStoreSetCalls (ns sid key : String) : List BackendCall :=
  redisSetValueCalls ns sid key

/-- Backend calls of redis `SessionStore.Flush`: it calls `sessionAccessed`,
which writes `time.Now()` under the `time_accessed` key — one backend write
on every Flush, with no dirty tracking. -/
def redisStoreFlushCalls (ns sid : String) : List BackendCall :=
  redisSetValueCalls ns sid "time_accessed"

/-- Shape of the redis typed getters: `var v T; _ = pder.getValue(...)`;
whatever `getValue` does — gob-decode a stored value into `v` or fail leaving
`v` at its zero value — the getter returns `v` and never an error. -/
def redisGetTyped {α : Type} (zero : α) (res : Except String α) : α :=
  match res with
  | Except.ok v => v
  | Except.error _ => zero

/-- Source redis `SessionStore.GetBool`. -/
def redisGetBool (res : Except String Bool) : Bool := redisGetTyped false res

/-- Source redis `SessionStore.GetString`. -/
def redisGetString (res : Except String String) : String := redisGetTyped "" res

/-- Source redis `SessionStore.GetInt`. -/
def redisGetInt (res : Except String Int) : Int := redisGetTyped 0 res

/-- Source redis `SessionStore.GetFloat`. -/
def redisGetFloat (res : Except String ℚ) : ℚ := redisGetTyped 0 res

/-! ### SessionInit of the two providers -/

/-- Source redis `SESS_ID_LEN = 36`. -/
def REDIS_SESS_ID_LEN : Nat := 36

/-- Source sqlite `SESS_ID_LEN = 36`. -/
def SQLITE_SESS_ID_LEN : Nat := 36

/-- Source redis `Provider.SessionInit`: error when the client is not
initialized, error when `len(sid)` (bytes) exceeds `SESS_ID_LEN`, otherwise a
store bound to `sid`. -/
def redisSessionInit (clientInitialized : Bool) (sid : String) : Except String String :=
  if ¬ clientInitialized then Except.error "Provider not initialized"
  else if sid.utf8ByteSize > REDIS_SESS_ID_LEN then
    Except.error "Session key length exceeded max value"
  else Except.ok sid

/-- Source sqlite `Provider.SessionInit`: same two checks against `dbConn`
and `SESS_ID_LEN`, then one `INSERT OR IGNORE` statement and a fresh store. -/
def sqliteSessionInit (dbConnInitialized : Bool) (sid : String) :
    Except String String × List BackendCall :=
  if ¬ dbConnInitialized then (Except.error "Provider not initialized", [])
  else if sid.utf8ByteSize > SQLITE_SESS_ID_LEN then
    (Except.error "Session key length exceeded max value", [])
  else (Except.ok sid, [BackendCall.dbExec "INSERT OR IGNORE INTO session_vals(id) VALUES($1)"])

/-! ### session.go: genSessionID -/

/-- Lowercase hexadecimal digits, as printed by Go `%x`. -/
def hexChars : List Char := "0123456789abcdef".data

/-- One hex digit of a nibble (`n < 16` in every use). -/
def hexDigitChar (n : Nat) : Char := hexChars.getD n 'x'

/-- Go `fmt.Sprintf("%x", bs)` on a byte slice: two lowercase hex digits per
byte, high nibble first. -/
def bytesToHexChars : List Nat → List Char
  | [] => []
  | b :: bs => hexDigitChar (b / 16) :: hexDigitChar (b % 16) :: bytesToHexChars bs

def bytesToHex (bs : List Nat) : String := String.mk (bytesToHexChars bs)

/-- Source `Manager.genSessionID`: 16 random bytes formatted by
`fmt.Sprintf("%x-%x-%x-%x-%x", b[0:4], b[4:6], b[6:8], b[8:10], b[10:])`.
The 16 bytes read from the random source are the argument. -/
def genSessionID (b : List Nat) : String :=
  bytesToHex (b.take 4) ++ "-" ++ bytesToHex ((b.drop 4).take 2) ++ "-" ++
  bytesToHex ((b.drop 6).take 2) ++ "-" ++ bytesToHex ((b.drop 8).take 2) ++ "-" ++
  bytesToHex (b.drop 10)

/-! ### session.go: the StartGC/StopGC cancellation state

`StartGC` creates a fresh `context.WithCancel` pair, stores the new cancel
function in `manager.gcCancel` (overwriting the previous one without calling
it) and spawns its goroutines bound to the new context; `StopGC` calls the
stored cancel function, if any.  Contexts are numbered by creation order. -/

structure GCSchedState where
  nextToken : Nat
  gcCancel : Option Nat
  cancelled : List Nat
  killLoops : List Nat
  idleLoops : List Nat
deriving DecidableEq

/-- The initial manager state: no context created, no loop running. -/
def GCSchedState.initial : GCSchedState := ⟨0, none, [], [], []⟩

/-- Source `Manager.StartGC`: allocate a fresh context token, store its cancel
function in `gcCancel`, spawn the kill-time goroutine when `SessionsKillTime`
is set and the idle/lifetime goroutine when `gcSleepSec` selects an
interval — both bound to the fresh token. -/
def startGC (killTimeSet : Bool) (life_time idle_time : Int) (s : GCSchedState) :
    GCSchedState :=
  let t := s.nextToken
  { s with nextToken := t + 1
         , gcCancel := some t
         , killLoops := if killTimeSet then s.killLoops ++ [t] else s.killLoops
         , idleLoops := if (gcSleepSec life_time idle_time).isSome
                        then s.idleLoops ++ [t] else s.idleLoops }

/-- Source `Manager.StopGC`: call the stored cancel function if there is one,
cancelling exactly the context it belongs to. -/
def stopGC (s : GCSchedState) : GCSchedState :=
  match s.gcCancel with
  | some t => { s with cancelled := s.cancelled ++ [t] }
  | none => s

/-- A goroutine spawned under context token `t` is still running: it was
spawned and its context was never cancelled. -/
def loopRunning (s : GCSchedState) (t : Nat) : Prop :=
  (t ∈ s.killLoops ∨ t ∈ s.idleLoops) ∧ t ∉ s.cancelled

instance (s : GCSchedState) (t : Nat) : Decidable (loopRunning s t) := by
  unfold loopRunning; infer_instance

/-! ### Classification of stored values by the sqlite getters -/

/-- Values the getter `GetBool` returns non-degenerately: `bool` only. -/
def GoValue.boolAccepted : GoValue → Bool
  | GoValue.vBool _ => true
  | _ => false

/-- Values `GetString` accepts: `string` and `[]byte` (converted). -/
def GoValue.stringAccepted : GoValue → Bool
  | GoValue.vString _ => true
  | GoValue.vBytes _ => true
  | _ => false

/-- Values `GetInt` accepts: `int64` and `int` (widened). -/
def GoValue.intAccepted : GoValue → Bool
  | GoValue.vInt64 _ => true
  | GoValue.vInt _ => true
  | _ => false

/-- Values `GetFloat` accepts: `float64` and `float32` (widened). -/
def GoValue.floatAccepted : GoValue → Bool
  | GoValue.vFloat64 _ => true
  | GoValue.vFloat32 _ => true
  | _ => false

/-! ### Helper lemmas -/

lemma lookupVal_insertVal (l : List (String × GoValue)) (k : String) (v : GoValue) :
    lookupVal (insertVal l k v) k = some v := by
  induction l with
  | nil => simp [insertVal, lookupVal]
  | cons p rest ih =>
    obtain ⟨pk, pv⟩ := p
    by_cases h : pk = k <;> simp [insertVal, lookupVal, h, ih]

lemma utf8Len_of_ascii (cs : List Char) (h : ∀ c ∈ cs, c.utf8Size = 1) :
    String.utf8Len cs = cs.length := by
  induction cs with
  | nil => rfl
  | cons c rest ih =>
    have hc : c.utf8Size = 1 := h c (by simp)
    have ihh := ih (fun x hx => h x (by simp [hx]))
    simp [String.utf8Len_cons, hc, ihh]

lemma isDigit_utf8Size (c : Char) (h : c.isDigit = true) : c.utf8Size = 1 := by
  simp only [Char.isDigit, Bool.and_eq_true, decide_eq_true_eq] at h
  obtain ⟨h1, h2⟩ := h
  have h2' : c.val.toNat ≤ 57 := h2
  unfold Char.utf8Size
  dsimp only
  split
  · rfl
  · next hgt =>
    exfalso
    have hle : c.val.toNat ≤ 127 := by omega
    exact hgt hle

lemma digitVal_isDigit (c : Char) (d : Nat) (h : digitVal c = some d) :
    c.isDigit = true := by
  by_cases hc : c.isDigit = true
  · exact hc
  · simp [digitVal, hc] at h

lemma getnum2_shape (cs : List Char) (d : Nat) (rest : List Char)
    (h : getnum2 cs = some (d, rest)) :
    ∃ pre, cs = pre ++ rest ∧ ∀ c ∈ pre, c.isDigit = true := by
  match cs with
  | [] => simp [getnum2] at h
  | [c] =>
    cases hd : digitVal c with
    | none => simp [getnum2, hd] at h
    | some v =>
      simp [getnum2, hd] at h
      refine ⟨[c], ?_, ?_⟩
      · simp [h.2]
      · intro x hx
        simp at hx
        subst hx
        exact digitVal_isDigit x v hd
  | c1 :: c2 :: r =>
    cases hd1 : digitVal c1 with
    | none => simp [getnum2, hd1] at h
    | some v1 =>
      cases hd2 : digitVal c2 with
      | none =>
        simp [getnum2, hd1, hd2] at h
        refine ⟨[c1], ?_, ?_⟩
        · simp [h.2]
        · intro x hx
          simp at hx
          subst hx
          exact digitVal_isDigit x v1 hd1
      | some v2 =>
        simp [getnum2, hd1, hd2] at h
        refine ⟨[c1, c2], ?_, ?_⟩
        · simp [h.2]
        · intro x hx
          simp at hx
          rcases hx with rfl | rfl
          · exact digitVal_isDigit _ v1 hd1
          · exact digitVal_isDigit _ v2 hd2

lemma expectColon_shape (cs rest : List Char) (h : expectColon cs = some rest) :
    cs = ':' :: rest := by
  match cs with
  | [] => simp [expectColon] at h
  | c :: r =>
    by_cases hc : c = ':'
    · subst hc
      simp only [expectColon, Option.some.injEq] at h
      rw [h]
    · simp [expectColon, hc] at h

lemma colon_utf8Size : (':' : Char).utf8Size = 1 := by decide

lemma utf8Len_digits (pre : List Char) (h : ∀ c ∈ pre, c.isDigit = true) :
    String.utf8Len pre = pre.length :=
  utf8Len_of_ascii pre (fun c hc => isDigit_utf8Size c (h c hc))

lemma parseClock_ascii (ws : Bool) (s : String) (t : Nat × Nat × Nat)
    (h : parseClock ws s = some t) :
    String.utf8Len s.data = s.data.length := by
  unfold parseClock at h
  split at h
  · simp at h
  next h1v r1 heq1 =>
    split at h
    · simp at h
    next r2 heq2 =>
      split at h
      · simp at h
      next mv r3 heq3 =>
        obtain ⟨pre1, hs1, hd1⟩ := getnum2_shape s.data h1v r1 heq1
        have hr1 : r1 = ':' :: r2 := expectColon_shape r1 r2 heq2
        obtain ⟨pre2, hs2, hd2⟩ := getnum2_shape r2 mv r3 heq3
        split at h
        · split at h
          · simp at h
          next r4 heq4 =>
            split at h
            · simp at h
            next sv r5 heq5 =>
              have hr3 : r3 = ':' :: r4 := expectColon_shape r3 r4 heq4
              obtain ⟨pre3, hs3, hd3⟩ := getnum2_shape r4 sv r5 heq5
              split at h
              · next hcond =>
                have hr5 : r5 = [] := hcond.1
                subst hr5
                rw [hs1, hr1, hs2, hr3, hs3]
                simp [String.utf8Len_append, String.utf8Len_cons, colon_utf8Size,
                      utf8Len_digits pre1 hd1, utf8Len_digits pre2 hd2,
                      utf8Len_digits pre3 hd3]
              · simp at h
        · split at h
          · next hcond =>
            have hr3 : r3 = [] := hcond.1
            subst hr3
            rw [hs1, hr1, hs2]
            simp [String.utf8Len_append, String.utf8Len_cons, colon_utf8Size,
                  utf8Len_digits pre1 hd1, utf8Len_digits pre2 hd2]
          · simp at h

lemma string_mk_length (cs : List Char) : (String.mk cs).length = cs.length := rfl

lemma bytesToHexChars_length (bs : List Nat) :
    (bytesToHexChars bs).length = 2 * bs.length := by
  induction bs with
  | nil => rfl
  | cons b rest ih =>
    simp only [bytesToHexChars, List.length_cons, ih]
    omega

lemma bytesToHex_length (bs : List Nat) : (bytesToHex bs).length = 2 * bs.length := by
  unfold bytesToHex
  rw [string_mk_length, bytesToHexChars_length]

lemma bytesToHex_data (bs : List Nat) : (bytesToHex bs).data = bytesToHexChars bs := rfl

lemma hyphen_length : ("-" : String).length = 1 := rfl

lemma hyphen_data : ("-" : String).data = ['-'] := rfl

lemma mem_hexChars_of_lt (n : Nat) (h : n < 16) : hexDigitChar n ∈ hexChars := by
  unfold hexDigitChar
  interval_cases n <;> decide

lemma bytesToHexChars_mem (bs : List Nat) (h : ∀ x ∈ bs, x < 256) :
    ∀ c ∈ bytesToHexChars bs, c ∈ hexChars := by
  induction bs with
  | nil => intro c hc; simp [bytesToHexChars] at hc
  | cons b rest ih =>
    intro c hc
    have hb : b < 256 := h b (by simp)
    simp only [bytesToHexChars, List.mem_cons] at hc
    rcases hc with rfl | rfl | hc
    · exact mem_hexChars_of_lt _ (by omega)
    · exact mem_hexChars_of_lt _ (by omega)
    · exact ih (fun x hx => h x (by simp [hx])) c hc

lemma hexChars_ascii : ∀ c ∈ hexChars, c.utf8Size = 1 := by decide

lemma hyphen_ascii : ('-' : Char).utf8Size = 1 := by decide

lemma genSessionID_length (b : List Nat) (hlen : b.length = 16) :
    (genSessionID b).length = 36 := by
  unfold genSessionID
  simp only [String.length_append, bytesToHex_length, hyphen_length,
    List.length_take, List.length_drop, hlen]
  omega

lemma genSessionID_ascii (b : List Nat) (hbyte : ∀ x ∈ b, x < 256) :
    ∀ c ∈ (genSessionID b).data, c.utf8Size = 1 := by
  intro c hc
  unfold genSessionID at hc
  simp only [String.data_append, bytesToHex_data, hyphen_data, List.mem_append,
    List.mem_singleton] at hc
  have htake : ∀ n m, ∀ x ∈ (b.drop n).take m, x < 256 :=
    fun n m x hx => hbyte x (List.drop_subset n b (List.take_subset m _ hx))
  rcases hc with ((((((((hc | rfl) | hc) | rfl) | hc) | rfl) | hc) | rfl) | hc)
  · exact hexChars_ascii c (bytesToHexChars_mem _ (fun x hx => hbyte x (List.take_subset 4 b hx)) c hc)
  · exact hyphen_ascii
  · exact hexChars_ascii c (bytesToHexChars_mem _ (htake 4 2) c hc)
  · exact hyphen_ascii
  · exact hexChars_ascii c (bytesToHexChars_mem _ (htake 6 2) c hc)
  · exact hyphen_ascii
  · exact hexChars_ascii c (bytesToHexChars_mem _ (htake 8 2) c hc)
  · exact hyphen_ascii
  · exact hexChars_ascii c (bytesToHexChars_mem _ (fun x hx => hbyte x (List.drop_subset 10 b hx)) c hc)

lemma genSessionID_byteSize (b : List Nat) (hlen : b.length = 16)
    (hbyte : ∀ x ∈ b, x < 256) : (genSessionID b).utf8ByteSize = 36 := by
  have h1 : (genSessionID b).utf8ByteSize = String.utf8Len (genSessionID b).data := rfl
  rw [h1, utf8Len_of_ascii _ (genSessionID_ascii b hbyte)]
  exact genSessionID_length b hlen

lemma startGC_nextToken (ks : Bool) (l i : Int) (s : GCSchedState) :
    (startGC ks l i s).nextToken = s.nextToken + 1 := rfl

lemma startGC_gcCancel (ks : Bool) (l i : Int) (s : GCSchedState) :
    (startGC ks l i s).gcCancel = some s.nextToken := rfl

lemma startGC_cancelled (ks : Bool) (l i : Int) (s : GCSchedState) :
    (startGC ks l i s).cancelled = s.cancelled := rfl

lemma startGC_killLoops (ks : Bool) (l i : Int) (s : GCSchedState) :
    (startGC ks l i s).killLoops =
      if ks then s.killLoops ++ [s.nextToken] else s.killLoops := rfl

lemma startGC_idleLoops (ks : Bool) (l i : Int) (s : GCSchedState) :
    (startGC ks l i s).idleLoops =
      if (gcSleepSec l i).isSome then s.idleLoops ++ [s.nextToken] else s.idleLoops := rfl

lemma stopGC_killLoops (s : GCSchedState) : (stopGC s).killLoops = s.killLoops := by
  unfold stopGC
  cases s.gcCancel <;> rfl

lemma stopGC_idleLoops (s : GCSchedState) : (stopGC s).idleLoops = s.idleLoops := by
  unfold stopGC
  cases s.gcCancel <;> rfl

lemma stopGC_cancelled_some (s : GCSchedState) (t : Nat) (h : s.gcCancel = some t) :
    (stopGC s).cancelled = s.cancelled ++ [t] := by
  unfold stopGC
  rw [h]

/-! ### Concrete stores used by counterexamples and witnesses -/

/-- A sqlite store that already stages `int64 1` under key `k`. -/
def c3Store : SqliteStore :=
  { sid := "s", timeAccessed := 0, timeCreated := 0,
    value := [("k", GoValue.vInt64 1)], valueModified := false }

/-- A clean sqlite store with nothing staged and the dirty flag clear. -/
def c4Store : SqliteStore :=
  { sid := "s", timeAccessed := 0, timeCreated := 0, value := [], valueModified := false }

/-- A sqlite store holding the byte slice `[]byte{97, 98}` under key `k`. -/
def c5Store : SqliteStore :=
  { sid := "s", timeAccessed := 0, timeCreated := 0,
    value := [("k", GoValue.vBytes [97, 98])], valueModified := false }

/-! ### Claims -/

/-- C1: for every configuration of `maxLifeTime` and `maxIdleTime` at the time
`StartGC` is called, the idle/lifetime loop is not started when both are zero;
when exactly one is nonzero its fixed interval is that value; when both are
nonzero the interval is the minimum of the two; and on each fire the loop
calls `SessionGC`. -/
theorem startGC_interval_selection (life_time idle_time : Int) :
    (life_time = 0 ∧ idle_time = 0 → gcSleepSec life_time idle_time = none) ∧
    (life_time = 0 ∧ idle_time ≠ 0 → gcSleepSec life_time idle_time = some idle_time) ∧
    (idle_time = 0 ∧ life_time ≠ 0 → gcSleepSec life_time idle_time = some life_time) ∧
    (life_time ≠ 0 ∧ idle_time ≠ 0 →
        gcSleepSec life_time idle_time = some (min idle_time life_time)) ∧
    (∀ s : Int, idleGCLoopIter false s = [GCAction.sleepFor s, GCAction.callSessionGC]) := by
  refine ⟨?_, ?_, ?_, ?_, fun s => rfl⟩ <;>
  · rintro ⟨h1, h2⟩
    unfold gcSleepSec
    split_ifs <;>
      first
        | rfl
        | (exfalso; omega)
        | (simp only [Option.some.injEq]; omega)

/-- Witness for C1: with `maxLifeTime = 0` and `maxIdleTime = 5` the loop
interval is 5 seconds. -/
theorem startGC_interval_selection_witness : gcSleepSec 0 5 = some 5 :=
  (startGC_interval_selection 0 5).2.1 ⟨rfl, by decide⟩

/-- C2: for every current time and kill time (as seconds of day), the daily
kill loop sleeps `(killSecondsOfDay - nowSecondsOfDay) mod 86400` seconds — a
value in `[0, 86400)`, `0` firing immediately — and the non-cancelled
iteration sleeps, calls `DestroyAllSessions`, sleeps a fixed 1 second, and
loops (the next iteration recomputes). -/
theorem killTime_sleep_mod (now_sec kill_sec : Int)
    (h1 : 0 ≤ now_sec) (h2 : now_sec < 86400)
    (h3 : 0 ≤ kill_sec) (h4 : kill_sec < 86400) :
    killSleepSec now_sec kill_sec = (kill_sec - now_sec) % 86400 ∧
    0 ≤ killSleepSec now_sec kill_sec ∧
    killSleepSec now_sec kill_sec < 86400 ∧
    killGCLoopIter false now_sec kill_sec =
      [GCAction.sleepFor (killSleepSec now_sec kill_sec),
       GCAction.callDestroyAllSessions, GCAction.sleepFor 1] := by
  refine ⟨?_, ?_, ?_, rfl⟩ <;>
  · simp only [killSleepSec]
    split_ifs <;> omega

/-- Witness for C2: 10 seconds past midnight with a kill time 5 seconds past
midnight sleeps 86395 seconds. -/
theorem killTime_sleep_mod_witness :
    killSleepSec 10 5 = (5 - 10) % 86400 ∧
    0 ≤ killSleepSec 10 5 ∧ killSleepSec 10 5 < 86400 ∧
    killGCLoopIter false 10 5 =
      [GCAction.sleepFor (killSleepSec 10 5),
       GCAction.callDestroyAllSessions, GCAction.sleepFor 1] :=
  killTime_sleep_mod 10 5 (by decide) (by decide) (by decide) (by decide)

/-- Counterexample for C3: setting a key to the value it already stages leaves
the sqlite store completely unchanged — neither the dirty flag nor the
last-access timestamp is updated — and the redis `Set` performs a backend
write, so the claim fails as stated on both counts. -/
theorem set_equal_value_noop_cex :
    (c3Store.set "k" (GoValue.vInt64 1) 99).1.valueModified = false ∧
    (c3Store.set "k" (GoValue.vInt64 1) 99).1.timeAccessed = 0 ∧
    redisStoreSetCalls "n" "s" "k" = [BackendCall.redisSet "n:s:k"] := by
  decide

/-- C3 (amended): for the sqlite store, `Set` stages the value in memory with
no backend call; when the new value differs from the staged one it marks the
session dirty and updates the last-access timestamp, and when it is equal
`Set` is a no-op.  The redis store's `Set` instead writes the value to the
backend immediately. -/
theorem set_staging_amended (st : SqliteStore) (key : String) (v : GoValue) (now : Int)
    (hdiff : lookupVal st.value key ≠ some v) :
    (st.set key v now).1.valueModified = true ∧
    (st.set key v now).1.timeAccessed = now ∧
    lookupVal (st.set key v now).1.value key = some v ∧
    (st.set key v now).2 = [] ∧
    (∀ st' : SqliteStore, ∀ k' : String, ∀ v' : GoValue, ∀ now' : Int,
        lookupVal st'.value k' = some v' → st'.set k' v' now' = (st', [])) ∧
    (∀ ns sid k : String,
        redisStoreSetCalls ns sid k = [BackendCall.redisSet (redisPrefixedKey ns sid k)]) := by
  refine ⟨?_, ?_, ?_, ?_, ?_, fun ns sid k => rfl⟩
  · simp [SqliteStore.set, hdiff]
  · simp [SqliteStore.set, hdiff]
  · simp [SqliteStore.set, hdiff, lookupVal_insertVal]
  · simp [SqliteStore.set, hdiff]
  · intro st' k' v' now' h
    simp [SqliteStore.set, h]

/-- Witness for C3 (amended): staging a fresh boolean marks the store dirty. -/
theorem set_staging_amended_witness :
    (c3Store.set "k2" (GoValue.vBool true) 7).1.valueModified = true :=
  (set_staging_amended c3Store "k2" (GoValue.vBool true) 7 (by decide)).1

/-- Counterexample for C4: the redis store's `Flush` performs a backend write
(the `time_accessed` touch) even when no mutation ever occurred on the
handle, so "zero backend calls" fails as stated. -/
theorem flush_redis_touch_cex :
    redisStoreFlushCalls "n" "s" = [BackendCall.redisSet "n:s:time_accessed"] ∧
    redisStoreFlushCalls "n" "s" ≠ [] := by
  decide

/-- C4 (amended): for the sqlite store, `Flush` with the dirty flag clear
performs zero backend calls and leaves the state unchanged, and with the flag
set it persists the staged state in one backend write and resets the flag;
`Set` on a changed value sets the flag, but `Delete` does not (a deletion
alone is not persisted by Flush).  The redis store persists on every `Set`
and its `Flush` always performs exactly one backend write touching the
access timestamp. -/
theorem flush_dirty_tracking_amended (st : SqliteStore) (ns sid : String) :
    (st.valueModified = false → st.flush = (st, [])) ∧
    (st.valueModified = true →
        st.flush.1 = { st with valueModified := false } ∧
        st.flush.2 = [BackendCall.dbExec
          "UPDATE session_vals SET val = $1, accessed_time = datetime() WHERE id = $2"]) ∧
    (∀ key : String, ∀ v : GoValue, ∀ now : Int, lookupVal st.value key ≠ some v →
        (st.set key v now).1.valueModified = true) ∧
    (∀ key : String, ∀ now : Int, (st.del key now).1.valueModified = st.valueModified) ∧
    redisStoreFlushCalls ns sid =
      [BackendCall.redisSet (redisPrefixedKey ns sid "time_accessed")] := by
  refine ⟨?_, ?_, ?_, ?_, rfl⟩
  · intro h
    simp [SqliteStore.flush, h]
  · intro h
    refine ⟨?_, ?_⟩ <;> simp [SqliteStore.flush, h]
  · intro key v now h
    simp [SqliteStore.set, h]
  · intro key now
    unfold SqliteStore.del
    cases hl : lookupVal st.value key <;> simp

/-- Witness for C4 (amended): a clean store flushes to itself with no backend
calls. -/
theorem flush_dirty_tracking_amended_witness : c4Store.flush = (c4Store, []) :=
  (flush_dirty_tracking_amended c4Store "n" "s").1 rfl

/-- Counterexample for C5: the sqlite `GetString` on a stored `[]byte` value —
whose type is not `string` — returns the converted bytes `"ab"`, not the zero
value `""`, so "mismatch returns the zero value" fails as stated. -/
theorem getString_bytes_cex :
    lookupVal c5Store.value "k" = some (GoValue.vBytes [97, 98]) ∧
    (c5Store.getString "k" 1).1 = "ab" ∧
    (c5Store.getString "k" 1).1 ≠ "" := by
  decide

/-- C5 (amended): the typed getters never return an error; on an absent key
they return the type's zero value; on a stored value outside the getter's
accepted set they return the zero value, where sqlite's `GetString` also
accepts `[]byte` (converted), `GetInt` also accepts `int` (widened) and
`GetFloat` also accepts `float32` (widened); the redis getters return the
zero value whenever the underlying read/decode fails. -/
theorem typed_getters_amended (st : SqliteStore) (key : String) (now : Int) :
    (lookupVal st.value key = none →
        (st.getBool key now).1 = false ∧
        (st.getString key now).1 = "" ∧
        (st.getInt key now).1 = 0 ∧
        (st.getFloat key now).1 = 0) ∧
    (∀ v : GoValue, lookupVal st.value key = some v →
        (v.boolAccepted = false → (st.getBool key now).1 = false) ∧
        (v.stringAccepted = false → (st.getString key now).1 = "") ∧
        (v.intAccepted = false → (st.getInt key now).1 = 0) ∧
        (v.floatAccepted = false → (st.getFloat key now).1 = 0)) ∧
    (∀ e : String,
        redisGetBool (Except.error e) = false ∧
        redisGetString (Except.error e) = "" ∧
        redisGetInt (Except.error e) = 0 ∧
        redisGetFloat (Except.error e) = 0) := by
  refine ⟨?_, ?_, fun e => ⟨rfl, rfl, rfl, rfl⟩⟩
  · intro h
    simp [SqliteStore.getBool, SqliteStore.getString, SqliteStore.getInt,
          SqliteStore.getFloat, h]
  · intro v hv
    refine ⟨?_, ?_, ?_, ?_⟩ <;>
    · intro hacc
      cases v <;>
        simp_all [SqliteStore.getBool, SqliteStore.getString, SqliteStore.getInt,
          SqliteStore.getFloat, GoValue.boolAccepted, GoValue.stringAccepted,
          GoValue.intAccepted, GoValue.floatAccepted]

/-- Witness for C5 (amended): on an absent key all four sqlite getters return
their zero value. -/
theorem typed_getters_amended_witness :
    (c5Store.getBool "absent" 0).1 = false ∧
    (c5Store.getString "absent" 0).1 = "" ∧
    (c5Store.getInt "absent" 0).1 = 0 ∧
    (c5Store.getFloat "absent" 0).1 = 0 :=
  (typed_getters_amended c5Store "absent" 0).1 (by decide)

/-- C6: for every non-empty kill-time string whose length is neither 5
characters (`HH:MM`) nor 8 characters (`HH:MM:SS`), `NewManager` returns an
error and `InitProvider` is never reached.  (When the byte and character
lengths differ the string contains a multibyte character, which can never
parse as a clock, so the result is an error either way.) -/
theorem newManager_bad_killTime_len (providerKnown : Bool)
    (initRes : Except String Unit) (kt : String)
    (h1 : kt ≠ "") (h2 : kt.length ≠ 5) (h3 : kt.length ≠ 8) :
    (∃ e, (newManager providerKnown initRes kt).result = Except.error e) ∧
    (newManager providerKnown initRes kt).initProviderCalled = false := by
  have hdata : kt.length = kt.data.length := rfl
  have hbs : kt.utf8ByteSize = String.utf8Len kt.data := rfl
  have hpt : ∃ e, parseTime kt = Except.error e := by
    unfold parseTime
    by_cases hb8 : kt.utf8ByteSize = TIME_SEC_LAYOUT.utf8ByteSize
    · rw [if_pos hb8]
      cases hp : parseClock true kt with
      | some t =>
        exfalso
        have ha := parseClock_ascii true kt t hp
        have h8 : TIME_SEC_LAYOUT.utf8ByteSize = 8 := by decide
        exact h3 (by rw [hdata, ← ha, ← hbs, hb8, h8])
      | none => exact ⟨_, rfl⟩
    · rw [if_neg hb8]
      by_cases hb5 : kt.utf8ByteSize = TIME_MIN_LAYOUT.utf8ByteSize
      · rw [if_pos hb5]
        cases hp : parseClock false kt with
        | some t =>
          exfalso
          have ha := parseClock_ascii false kt t hp
          have h5 : TIME_MIN_LAYOUT.utf8ByteSize = 5 := by decide
          exact h2 (by rw [hdata, ← ha, ← hbs, hb5, h5])
        | none => exact ⟨_, rfl⟩
      · rw [if_neg hb5]
        exact ⟨_, rfl⟩
  obtain ⟨e, he⟩ := hpt
  cases providerKnown with
  | false => exact ⟨⟨_, rfl⟩, rfl⟩
  | true =>
    unfold newManager
    rw [if_neg (by simp), if_pos h1, he]
    exact ⟨⟨e, rfl⟩, rfl⟩

/-- Witness for C6: the 3-character kill time `abc` makes construction fail
before `InitProvider`. -/
theorem newManager_bad_killTime_len_witness :
    (∃ e, (newManager true (Except.ok ()) "abc").result = Except.error e) ∧
    (newManager true (Except.ok ()) "abc").initProviderCalled = false :=
  newManager_bad_killTime_len true (Except.ok ()) "abc" (by decide) (by decide) (by decide)

/-- C7 (code bug): with a non-nil sink and verbosity `LOG_LEVEL_WARN`, a
session manager with `maxLifeTime = 5`, `maxIdleTime = 0` and no kill time
emits the `running garbage collector` line labelled `DEBUG` — a stated level
strictly above the threshold, contradicting the level scheme used everywhere
else in `StartGC`. -/
theorem startGC_log_level_bug :
    (LOG_LEVEL_DEBUG, "running garbage collector every %d seconds") ∈
      startGCEmitted true LOG_LEVEL_WARN false 5 0 ∧
    LOG_LEVEL_WARN < LOG_LEVEL_DEBUG ∧
    (∀ lv : LogLevel, startGCEmitted false lv false 5 0 = []) := by
  refine ⟨by decide, by decide, fun lv => ?_⟩
  simp [startGCEmitted]

/-- Counterexample for C8: after `StartGC`, a second `StartGC` and a `StopGC`,
the loops spawned by the first `StartGC` (context token 0) are still running:
the second `StartGC` overwrote `gcCancel` without cancelling token 0, so those
loops never transition to `Stopped`. -/
theorem second_startGC_leak_cex :
    (startGC true 0 5 GCSchedState.initial).gcCancel = some 0 ∧
    loopRunning (stopGC (startGC true 0 5 (startGC true 0 5 GCSchedState.initial))) 0 := by
  decide

/-- C8 (amended): `StopGC` cancels both loops of the most recent `StartGC`
(they transition to `Stopped`), but a second `StartGC` replaces the stored
cancellation token without cancelling the previous one, so loops spawned by
the earlier `StartGC` keep running even after a subsequent `StopGC`. -/
theorem stopGC_current_token_amended (s : GCSchedState) (ks ks2 : Bool)
    (l i l2 i2 : Int) :
    ¬ loopRunning (stopGC (startGC ks l i s)) s.nextToken ∧
    (loopRunning (startGC ks l i s) s.nextToken →
      loopRunning (stopGC (startGC ks2 l2 i2 (startGC ks l i s))) s.nextToken) := by
  constructor
  · rintro ⟨hmem, hnc⟩
    apply hnc
    rw [stopGC_cancelled_some _ _ (startGC_gcCancel ks l i s)]
    simp
  · rintro ⟨hmem, hnc⟩
    have hc2 : (startGC ks2 l2 i2 (startGC ks l i s)).gcCancel
        = some (s.nextToken + 1) := by
      rw [startGC_gcCancel, startGC_nextToken]
    constructor
    · rw [stopGC_killLoops, stopGC_idleLoops]
      rcases hmem with hk | hi
      · left
        rw [startGC_killLoops]
        split_ifs with hks2
        · exact List.mem_append_left _ hk
        · exact hk
      · right
        rw [startGC_idleLoops]
        split_ifs with hgc2
        · exact List.mem_append_left _ hi
        · exact hi
    · rw [stopGC_cancelled_some _ _ hc2, startGC_cancelled]
      intro hin
      rcases List.mem_append.mp hin with hcc | hcc
      · exact hnc hcc
      · simp at hcc

/-- Witness for C8 (amended): the kill loop of the first `StartGC` survives a
later `StartGC` followed by `StopGC`. -/
theorem stopGC_current_token_amended_witness :
    loopRunning (stopGC (startGC false 0 3 (startGC true 0 5 GCSchedState.initial))) 0 :=
  (stopGC_current_token_amended GCSchedState.initial true false 0 5 0 3).2 (by decide)

/-- C9: for every 16-byte random input, `genSessionID` produces a 36-character
string of five lowercase-hex groups of 8, 4, 4, 4 and 12 digits separated by
four hyphens. -/
theorem genSessionID_uuid_layout (b : List Nat) (hlen : b.length = 16)
    (hbyte : ∀ x ∈ b, x < 256) :
    (genSessionID b).length = 36 ∧
    ∃ g1 g2 g3 g4 g5 : String,
      genSessionID b = g1 ++ "-" ++ g2 ++ "-" ++ g3 ++ "-" ++ g4 ++ "-" ++ g5 ∧
      g1.length = 8 ∧ g2.length = 4 ∧ g3.length = 4 ∧ g4.length = 4 ∧ g5.length = 12 ∧
      (∀ c ∈ g1.data ++ g2.data ++ g3.data ++ g4.data ++ g5.data, c ∈ hexChars) := by
  refine ⟨genSessionID_length b hlen,
    bytesToHex (b.take 4), bytesToHex ((b.drop 4).take 2), bytesToHex ((b.drop 6).take 2),
    bytesToHex ((b.drop 8).take 2), bytesToHex (b.drop 10), rfl, ?_, ?_, ?_, ?_, ?_, ?_⟩
  · rw [bytesToHex_length, List.length_take, hlen]; omega
  · rw [bytesToHex_length, List.length_take, List.length_drop, hlen]; omega
  · rw [bytesToHex_length, List.length_take, List.length_drop, hlen]; omega
  · rw [bytesToHex_length, List.length_take, List.length_drop, hlen]; omega
  · rw [bytesToHex_length, List.length_drop, hlen]
  · intro c hc
    have htake : ∀ n m : Nat, ∀ x ∈ (b.drop n).take m, x < 256 :=
      fun n m x hx => hbyte x (List.drop_subset n b (List.take_subset m _ hx))
    simp only [bytesToHex_data, List.mem_append] at hc
    rcases hc with (((hc | hc) | hc) | hc) | hc
    · exact bytesToHexChars_mem _ (fun x hx => hbyte x (List.take_subset 4 b hx)) c hc
    · exact bytesToHexChars_mem _ (htake 4 2) c hc
    · exact bytesToHexChars_mem _ (htake 6 2) c hc
    · exact bytesToHexChars_mem _ (htake 8 2) c hc
    · exact bytesToHexChars_mem _ (fun x hx => hbyte x (List.drop_subset 10 b hx)) c hc

/-- Witness for C9: sixteen zero bytes give a 36-character id. -/
theorem genSessionID_uuid_layout_witness :
    (genSessionID (List.replicate 16 0)).length = 36 :=
  (genSessionID_uuid_layout (List.replicate 16 0) (by decide) (by decide)).1

/-- C10: every generated session id has byte length exactly 36, both
providers set `SESS_ID_LEN = 36`, and `SessionInit` (once the provider is
initialized) accepts every id of byte length at most 36 — rejecting only
strictly longer ones — so `SessionStart("")` never fails with the id-length
error. -/
theorem sessionStart_id_len_safe (b : List Nat) (hlen : b.length = 16)
    (hbyte : ∀ x ∈ b, x < 256) :
    (genSessionID b).utf8ByteSize = 36 ∧
    REDIS_SESS_ID_LEN = 36 ∧ SQLITE_SESS_ID_LEN = 36 ∧
    redisSessionInit true (genSessionID b) = Except.ok (genSessionID b) ∧
    (sqliteSessionInit true (genSessionID b)).1 = Except.ok (genSessionID b) ∧
    (∀ sid : String, sid.utf8ByteSize ≤ 36 →
        redisSessionInit true sid = Except.ok sid ∧
        (sqliteSessionInit true sid).1 = Except.ok sid) := by
  have hsz := genSessionID_byteSize b hlen hbyte
  have hok : ∀ sid : String, sid.utf8ByteSize ≤ 36 →
      redisSessionInit true sid = Except.ok sid ∧
      (sqliteSessionInit true sid).1 = Except.ok sid := by
    intro sid hs
    constructor
    · unfold redisSessionInit
      rw [if_neg (by simp), if_neg (by unfold REDIS_SESS_ID_LEN; omega)]
    · unfold sqliteSessionInit
      rw [if_neg (by simp), if_neg (by unfold SQLITE_SESS_ID_LEN; omega)]
  exact ⟨hsz, rfl, rfl, (hok _ (by omega)).1, (hok _ (by omega)).2, hok⟩

/-- Witness for C10: the all-zero id is accepted by both providers. -/
theorem sessionStart_id_len_safe_witness :
    redisSessionInit true (genSessionID (List.replicate 16 0)) =
      Except.ok (genSessionID (List.replicate 16 0)) :=
  (sessionStart_id_len_safe (List.replicate 16 0) (by decide) (by decide)).2.2.2.1

end SessionRepo
